import Mathlib

/-!
Verification development for the interface repository: a shallow embedding of
`wagmiConfig.ts` (RPC transport ordering, wallet connector wiring),
the viem-client-to-ethers-provider adapter, and `useSwapCallback.tsx`
(swap-execution callback, fee fields, transaction status).
-/

namespace InterfaceWeb

/-! ## Chain info and `orderedTransportUrls` (wagmiConfig.ts) -/

/-- One entry of a `rpcUrls` record; the code only reads the `http` list. -/
structure RpcEntry where
  http : List String
deriving DecidableEq

/-- The `rpcUrls` record of a chain-info object.  Every category is accessed
with optional chaining (`?.http ?? []`) in the source, so each is optional. -/
structure RpcUrls where
  interface : Option RpcEntry
  default : Option RpcEntry
  public : Option RpcEntry
  fallback : Option RpcEntry
deriving DecidableEq

/-- The part of `getChainInfo`-returned chain-info used by `orderedTransportUrls`. -/
structure ChainInfo where
  rpcUrls : RpcUrls
deriving DecidableEq

/-- `entry?.http ?? []` of the source. -/
def httpOrEmpty (e : Option RpcEntry) : List String :=
  match e with
  | some entry => entry.http
  | none => []

/-- JavaScript `Set.prototype.add` step as used by `Array.from(new Set(l))`:
an element is added only when not already present (insertion order kept). -/
def jsSetAdd (acc : List String) (x : String) : List String :=
  if x ∈ acc then acc else acc ++ [x]

/-- `Array.from(new Set(l))`: deduplicate keeping the first occurrence of
each element, preserving order. -/
def jsSetFrom (l : List String) : List String :=
  l.foldl jsSetAdd []

/-- `orderedTransportUrls`: concatenate the interface, default, public and
fallback HTTP RPC URL lists in that order, drop falsy (empty) strings
(`filter(Boolean)`), and deduplicate via `Array.from(new Set(...))`. -/
def orderedTransportUrls (chain : ChainInfo) : List String :=
  let orderedRpcUrls :=
    httpOrEmpty chain.rpcUrls.interface ++
    httpOrEmpty chain.rpcUrls.default ++
    httpOrEmpty chain.rpcUrls.public ++
    httpOrEmpty chain.rpcUrls.fallback
  jsSetFrom (orderedRpcUrls.filter (fun s => !s.isEmpty))

/-- Specification-side deduplication: keep each string only at its first
occurrence (stated recursively, independently of the foldl accumulator
used to model the JavaScript `Set`). -/
def keepFirst : List String → List String
  | [] => []
  | x :: xs => x :: keepFirst (xs.filter (fun y => decide (y ≠ x)))
termination_by l => l.length
decreasing_by
  simp only [List.length_cons]
  exact Nat.lt_succ_of_le (List.length_filter_le _ _)
/-! ## Viem client to ethers provider adapter (memoized via a `WeakMap`) -/

/-- The `ensRegistry` entry of a chain contracts record. -/
structure EnsRegistry where
  address : String
deriving DecidableEq

/-- The `contracts` record of a viem chain; only `ensRegistry` is read. -/
structure ChainContracts where
  ensRegistry : Option EnsRegistry
deriving DecidableEq

/-- The part of a viem `Chain` read by `clientToProvider`. -/
structure VChain where
  id : Nat
  name : String
  contracts : Option ChainContracts
deriving DecidableEq

/-- A viem `Client<Transport, Chain>`: the `chain` field is present by type.
`cid` models JavaScript object identity (the `WeakMap` key); `transport`
is opaque to this code and modelled by a number. -/
structure Client where
  cid : Nat
  chain : VChain
  transport : Nat
deriving DecidableEq

/-- The ethers network descriptor built by `clientToProvider`. -/
structure Network where
  chainId : Nat
  name : String
  ensAddress : Option String
deriving DecidableEq

/-- An ethers `Web3Provider`.  `pid` models object identity: each
`new Web3Provider(...)` yields a fresh `pid`, so equal `pid`s mean the very
same object. -/
structure Web3Provider where
  pid : Nat
  transport : Nat
  network : Network
deriving DecidableEq

/-- The module-level `providers` `WeakMap` together with a counter supplying
fresh object identities for newly constructed providers. -/
structure ProviderCache where
  entries : List (Nat × Web3Provider)
  nextPid : Nat
deriving DecidableEq

/-- The `chain ? {...} : chainId ? {chainId, name: Unsupported} : undefined`
conditional.  A present chain object is always truthy; a `chainId` of `0` is
falsy in JavaScript. -/
def toNetwork (chain : Option VChain) (ensAddress : Option String) (chainId : Option Nat) :
    Option Network :=
  match chain with
  | some c => some { chainId := c.id, name := c.name, ensAddress := ensAddress }
  | none =>
    match chainId with
    | some cid =>
      if cid = 0 then none else some { chainId := cid, name := "Unsupported", ensAddress := none }
    | none => none

/-- `clientToProvider`: convert a viem client to an ethers `Web3Provider`,
returning `undefined` for a missing client, and caching the provider per
client instance in the `providers` `WeakMap` (threaded here as explicit
state). -/
def clientToProvider (client : Option Client) (chainId : Option Nat)
    (cache : ProviderCache) : Option Web3Provider × ProviderCache :=
  match client with
  | none => (none, cache)
  | some c =>
    let ensAddress := (c.chain.contracts.bind (fun ct => ct.ensRegistry)).map (fun r => r.address)
    match toNetwork (some c.chain) ensAddress chainId with
    | none => (none, cache)
    | some nw =>
      match cache.entries.lookup c.cid with
      | some p => (some p, cache)
      | none =>
        let p : Web3Provider := { pid := cache.nextPid, transport := c.transport, network := nw }
        (some p, { entries := (c.cid, p) :: cache.entries, nextPid := cache.nextPid + 1 })

/-! ## Wallet connector wiring (wagmiConfig.ts) -/

/-- The wallet connectors assembled by `createWagmiConnectors`, identified by
which factory produced them. -/
inductive Connector
  | porto
  | binance
  | walletConnect
  | embeddedWallet
  | coinbase
  | safe
  | mock
deriving DecidableEq

/-- `createWagmiConnectors`.  `isTestEnvFlag` and `isPlaywrightEnvFlag` stand
for the environment probes `isTestEnv()` and `isPlaywrightEnv()`, which live
outside this excerpt and are modelled as boolean parameters. -/
def createWagmiConnectors (isTestEnvFlag isPlaywrightEnvFlag : Bool)
    (includeMockConnector : Bool) : List Connector :=
  let baseConnectors :=
    [Connector.porto, Connector.binance] ++
    (if isTestEnvFlag && !isPlaywrightEnvFlag then [] else [Connector.walletConnect]) ++
    [Connector.embeddedWallet, Connector.coinbase, Connector.safe]
  if includeMockConnector then baseConnectors ++ [Connector.mock] else baseConnectors

/-- `defaultConnectors`: the module-level connector list, built with
`includeMockConnector: isPlaywrightEnv()`. -/
def defaultConnectors (isTestEnvFlag isPlaywrightEnvFlag : Bool) : List Connector :=
  createWagmiConnectors isTestEnvFlag isPlaywrightEnvFlag isPlaywrightEnvFlag

/-! ## Swap callback data model (useSwapCallback.tsx) -/

/-- `TradeType` of the trading SDK. -/
inductive TradeType
  | EXACT_INPUT
  | EXACT_OUTPUT
deriving DecidableEq

/-- `TradeFillType` of the routing state: how a quoted swap gets filled. -/
inductive TradeFillType
  | Classic
  | UniswapX
  | UniswapXv2
deriving DecidableEq

/-- Modelled from the spec: `OffchainOrderType` of the routing state
(missing from this excerpt); only `DUTCH_AUCTION` is named by the code. -/
inductive OffchainOrderType
  | DUTCH_AUCTION
  | DUTCH_V2
  | LIMIT_ORDER
deriving DecidableEq

/-- A swap fee attached to a classic trade: a percent (for exact-input
trades), a flat amount (for exact-output trades) and a recipient.  The
percent is opaque to this code and modelled by a number; `BigNumber.from`
on the amount is modelled as the identity on its numeric value. -/
structure SwapFee where
  percent : Nat
  amount : Nat
  recipient : String
deriving DecidableEq

/-- Modelled from the spec: the trade variant tag discriminating
`isClassicTrade` from `isUniswapXTrade` (the predicates live in
`state/routing/utils`, outside this excerpt).  A classic trade carries an
optional `swapFee`; a UniswapX trade carries an `offchainOrderType`. -/
inductive TradeVariant
  | classic (swapFee : Option SwapFee)
  | uniswapX (offchainOrderType : OffchainOrderType)
deriving DecidableEq

/-- The part of an `InterfaceTrade` read by `useSwapCallback`: the variant
tag, the trade type, and the currency/amount projections used to build the
recorded swap info (`currencyId(...)` and `...quotient.toString()` results
are modelled as precomputed strings; the slippage-adjusted amounts are the
values of `minimumAmountOut`/`maximumAmountIn` at the fixed
`allowedSlippage` the hook closes over). -/
structure Trade where
  variant : TradeVariant
  tradeType : TradeType
  inputCurrencyId : String
  outputCurrencyId : String
  inputAmountRaw : String
  outputAmountRaw : String
  minimumAmountOutRaw : String
  maximumAmountInRaw : String
deriving DecidableEq

/-- `isClassicTrade` on an optional trade. -/
def isClassicTrade : Option Trade → Bool
  | some t =>
    match t.variant with
    | TradeVariant.classic _ => true
    | TradeVariant.uniswapX _ => false
  | none => false

/-- `isUniswapXTrade` on an optional trade. -/
def isUniswapXTrade : Option Trade → Bool
  | some t =>
    match t.variant with
    | TradeVariant.classic _ => false
    | TradeVariant.uniswapX _ => true
  | none => false

/-- `trade.offchainOrderType` for UniswapX trades, with the
`OffchainOrderType.DUTCH_AUCTION` fallback the code supplies for the
type checker on the other branch. -/
def tradeOffchainOrderType (t : Trade) : OffchainOrderType :=
  match t.variant with
  | TradeVariant.uniswapX o => o
  | TradeVariant.classic _ => OffchainOrderType.DUTCH_AUCTION

/-- The `feeOptions` / `flatFeeOptions` alternative returned by
`getUniversalRouterFeeFields`. -/
inductive UniversalRouterFeeField
  | feeOptions (fee : Nat) (recipient : String)
  | flatFeeOptions (amount : Nat) (recipient : String)
deriving DecidableEq

/-- `getUniversalRouterFeeFields`: `undefined` unless the trade is classic
and has a `swapFee`; then a percent fee for exact-input trades and a flat
fee otherwise, both with the fee recipient. -/
def getUniversalRouterFeeFields (trade : Option Trade) : Option UniversalRouterFeeField :=
  match trade with
  | none => none
  | some t =>
    match t.variant with
    | TradeVariant.uniswapX _ => none
    | TradeVariant.classic swapFee =>
      match swapFee with
      | none => none
      | some fee =>
        if t.tradeType = TradeType.EXACT_INPUT then
          some (UniversalRouterFeeField.feeOptions fee.percent fee.recipient)
        else
          some (UniversalRouterFeeField.flatFeeOptions fee.amount fee.recipient)

/-- The response inside a UniswapX swap result: order hash, deadline and the
encoded order read by the recording code. -/
structure UniswapXResponse where
  orderHash : String
  deadline : Nat
  encodedOrder : String
deriving DecidableEq

/-- The transaction response inside a classic swap result; only `hash` is
read by this code. -/
structure TxResponse where
  hash : String
deriving DecidableEq

/-- A `SwapResult` as produced by the two strategies: a discriminated union
on `TradeFillType` (classic results also carry an optional `deadline`). -/
inductive SwapResult
  | uniswapX (response : UniswapXResponse)
  | uniswapXv2 (response : UniswapXResponse)
  | classic (response : TxResponse) (deadline : Option Nat)
deriving DecidableEq

/-- `result.type`. -/
def SwapResult.fillType : SwapResult → TradeFillType
  | SwapResult.uniswapX _ => TradeFillType.UniswapX
  | SwapResult.uniswapXv2 _ => TradeFillType.UniswapXv2
  | SwapResult.classic _ _ => TradeFillType.Classic

/-- The trade-type dependent amount fields spread into the recorded swap
info. -/
inductive SwapAmounts
  | exactInput (inputCurrencyAmountRaw expectedOutputCurrencyAmountRaw
      minimumOutputCurrencyAmountRaw : String)
  | exactOutput (maximumInputCurrencyAmountRaw outputCurrencyAmountRaw
      expectedInputCurrencyAmountRaw : String)
deriving DecidableEq

/-- The swap info recorded with an order or a transaction
(`TransactionType.Swap` is the only type this code constructs). -/
structure TransactionInfo where
  inputCurrencyId : String
  outputCurrencyId : String
  isUniswapXOrder : Bool
  amounts : SwapAmounts
deriving DecidableEq

/-- The `swapInfo` object built by the callback from the trade and the
strategy result. -/
def mkSwapInfo (trade : Trade) (result : SwapResult) : TransactionInfo :=
  { inputCurrencyId := trade.inputCurrencyId
    outputCurrencyId := trade.outputCurrencyId
    isUniswapXOrder :=
      decide (result.fillType = TradeFillType.UniswapX) ||
      decide (result.fillType = TradeFillType.UniswapXv2)
    amounts :=
      match trade.tradeType with
      | TradeType.EXACT_INPUT =>
        SwapAmounts.exactInput trade.inputAmountRaw trade.outputAmountRaw
          trade.minimumAmountOutRaw
      | TradeType.EXACT_OUTPUT =>
        SwapAmounts.exactOutput trade.maximumAmountInRaw trade.outputAmountRaw
          trade.inputAmountRaw }

/-- The record passed to `addOrder`.  The `chainId` field keeps the optional
`supportedConnectedChainId` the code casts with `as UniverseChainId`. -/
structure OrderRecord where
  offerer : String
  orderHash : String
  chainId : Option Nat
  expiry : Nat
  swapInfo : TransactionInfo
  encodedOrder : String
  offchainOrderType : OffchainOrderType
deriving DecidableEq

/-- The record passed to `addTransaction`. -/
structure TxRecord where
  response : TxResponse
  info : TransactionInfo
  deadline : Option Nat
deriving DecidableEq

/-- Modelled from the spec: the application state the swaps are recorded in
for UI display (the `addOrder` / `addTransaction` hooks live in
`state/signatures` and `state/transactions`, outside this excerpt). -/
structure AppState where
  orders : List OrderRecord
  transactions : List TxRecord
deriving DecidableEq

/-- Modelled from the spec: `addOrder` records an off-chain order in
application state. -/
def addOrder (st : AppState) (rec : OrderRecord) : AppState :=
  { st with orders := st.orders ++ [rec] }

/-- Modelled from the spec: `addTransaction` records an on-chain transaction
in application state. -/
def addTransaction (st : AppState) (rec : TxRecord) : AppState :=
  { st with transactions := st.transactions ++ [rec] }

/-- The account fields read by the callback (`useAccount()`). -/
structure AccountState where
  isConnected : Bool
  address : Option String
deriving DecidableEq

/-- JavaScript falsiness of an optional string: `undefined` and the empty
string are falsy. -/
def strFalsy : Option String → Bool
  | none => true
  | some s => s.isEmpty

/-- JavaScript falsiness of an optional number: `undefined` and `0` are
falsy. -/
def natFalsy : Option Nat → Bool
  | none => true
  | some n => n == 0

/-- The values the callback returned by `useSwapCallback` closes over.
`isEVMChain` is the platform predicate; `selectChainSucceeds` models the
`useSelectChain` hook (a chain switch request that reports success);
`uniswapXResult` / `universalRouterResult` are the results the two
already-implemented strategies would return when invoked. -/
structure SwapEnv where
  trade : Option Trade
  account : AccountState
  supportedConnectedChainId : Option Nat
  swapChainId : Option Nat
  isEVMChain : Nat → Bool
  selectChainSucceeds : Nat → Bool
  uniswapXResult : SwapResult
  universalRouterResult : SwapResult

/-- The errors thrown by the validation prefix of the callback, in source
order. -/
inductive SwapCallbackError
  | missingTrade
  | walletNotConnected
  | missingSwapChainId
  | nonEvmChain
  | wrongChain
deriving DecidableEq

/-- Which of the two swap-execution strategies the callback delegates to. -/
inductive StrategyCall
  | uniswapX
  | universalRouter
deriving DecidableEq

/-- The validation prefix of the callback body: the chain of `throw`s before
`await swapCallback()`.  On success it yields the narrowed trade, the
account address and the swap chain id. -/
def validateSwap (env : SwapEnv) : Except SwapCallbackError (Trade × String × Nat) :=
  match env.trade with
  | none => Except.error SwapCallbackError.missingTrade
  | some trade =>
    if env.account.isConnected = false ∨ strFalsy env.account.address = true then
      Except.error SwapCallbackError.walletNotConnected
    else
      match env.swapChainId with
      | none => Except.error SwapCallbackError.missingSwapChainId
      | some scid =>
        if scid = 0 then Except.error SwapCallbackError.missingSwapChainId
        else if env.isEVMChain scid = false then Except.error SwapCallbackError.nonEvmChain
        else if natFalsy env.supportedConnectedChainId = true ∨
            env.supportedConnectedChainId ≠ some scid then
          if env.selectChainSucceeds scid = true then
            Except.ok (trade, env.account.address.getD "", scid)
          else Except.error SwapCallbackError.wrongChain
        else Except.ok (trade, env.account.address.getD "", scid)

/-- Line 95 of the hook: `isUniswapXTrade(trade) ? uniswapXSwapCallback :
universalRouterSwapCallback`. -/
def swapCallbackSelect (trade : Option Trade) : StrategyCall :=
  if isUniswapXTrade trade then StrategyCall.uniswapX else StrategyCall.universalRouter

/-- The result `await swapCallback()` produces for the selected strategy. -/
def strategyResult (env : SwapEnv) : SwapResult :=
  match swapCallbackSelect env.trade with
  | StrategyCall.uniswapX => env.uniswapXResult
  | StrategyCall.universalRouter => env.universalRouterResult

/-- The observable outcome of one invocation of the callback: the value
returned or error thrown, which strategy (if any) was invoked, and the
application state afterwards. -/
structure RunOutput where
  result : Except SwapCallbackError SwapResult
  invoked : Option StrategyCall
  state : AppState

/-- One invocation of the callback returned by `useSwapCallback`: validate,
delegate to the selected strategy, build `swapInfo`, then record the result
via `addOrder` (UniswapX / UniswapXv2 fills) or `addTransaction` (default
branch), and return the result. -/
def runSwapCallback (env : SwapEnv) (st : AppState) : RunOutput :=
  match validateSwap env with
  | Except.error e => { result := Except.error e, invoked := none, state := st }
  | Except.ok (trade, addr, _scid) =>
    let result := strategyResult env
    let info := mkSwapInfo trade result
    let finalState :=
      match result with
      | SwapResult.uniswapX resp =>
        addOrder st
          { offerer := addr
            orderHash := resp.orderHash
            chainId := env.supportedConnectedChainId
            expiry := resp.deadline
            swapInfo := info
            encodedOrder := resp.encodedOrder
            offchainOrderType := tradeOffchainOrderType trade }
      | SwapResult.uniswapXv2 resp =>
        addOrder st
          { offerer := addr
            orderHash := resp.orderHash
            chainId := env.supportedConnectedChainId
            expiry := resp.deadline
            swapInfo := info
            encodedOrder := resp.encodedOrder
            offchainOrderType := tradeOffchainOrderType trade }
      | SwapResult.classic resp dl =>
        addTransaction st { response := resp, info := info, deadline := dl }
    { result := Except.ok result
      invoked := some (swapCallbackSelect env.trade)
      state := finalState }

/-! ## Swap transaction status (useSwapTransactionStatus) -/

/-- Modelled from the spec: the lifecycle status of a tracked transaction. -/
inductive TransactionStatus
  | Pending
  | Confirmed
  | Failed
deriving DecidableEq

/-- A transaction stored in the transaction store; only `status` is read. -/
structure StoredTransaction where
  status : TransactionStatus
deriving DecidableEq

/-- Modelled from the spec: `useTransaction` looks a transaction up by hash
in the transaction store, returning `undefined` for an `undefined` hash or
a hash that is not stored. -/
def useTransaction (store : List (String × StoredTransaction)) (hash : Option String) :
    Option StoredTransaction :=
  match hash with
  | none => none
  | some h => store.lookup h

/-- `useSwapTransactionStatus`: look up the transaction for a classic swap
result hash, returning `undefined` when there is none, else its status. -/
def useSwapTransactionStatus (store : List (String × StoredTransaction))
    (swapResult : Option SwapResult) : Option TransactionStatus :=
  let hash : Option String :=
    match swapResult with
    | some (SwapResult.classic resp _) => some resp.hash
    | _ => none
  match useTransaction store hash with
  | none => none
  | some t => some t.status

/-! ## Concrete inputs used to witness the theorems with hypotheses -/

/-- A concrete classic trade. -/
def tradeClassicW : Trade :=
  { variant := TradeVariant.classic none
    tradeType := TradeType.EXACT_INPUT
    inputCurrencyId := "1-0xin"
    outputCurrencyId := "1-0xout"
    inputAmountRaw := "100"
    outputAmountRaw := "200"
    minimumAmountOutRaw := "190"
    maximumAmountInRaw := "110" }

/-- A concrete UniswapX trade. -/
def tradeUniswapXW : Trade :=
  { variant := TradeVariant.uniswapX OffchainOrderType.DUTCH_AUCTION
    tradeType := TradeType.EXACT_OUTPUT
    inputCurrencyId := "1-0xin"
    outputCurrencyId := "1-0xout"
    inputAmountRaw := "100"
    outputAmountRaw := "200"
    minimumAmountOutRaw := "190"
    maximumAmountInRaw := "110" }

/-- An empty application state. -/
def stEmptyW : AppState := { orders := [], transactions := [] }

/-- A concrete swap info record. -/
def infoW : TransactionInfo :=
  { inputCurrencyId := "1-0xin"
    outputCurrencyId := "1-0xout"
    isUniswapXOrder := false
    amounts := SwapAmounts.exactInput "1" "2" "3" }

/-- A concrete order record. -/
def orderRecW : OrderRecord :=
  { offerer := "0xofferer"
    orderHash := "0xorder"
    chainId := some 1
    expiry := 9
    swapInfo := infoW
    encodedOrder := "0xenc"
    offchainOrderType := OffchainOrderType.DUTCH_AUCTION }

/-- A concrete transaction record. -/
def txRecW : TxRecord :=
  { response := { hash := "0xtxhash" }
    info := infoW
    deadline := none }

/-- A nonempty application state. -/
def stNonemptyW : AppState :=
  { orders := [orderRecW]
    transactions := [txRecW] }

/-- A concrete environment for which validation succeeds with a classic
trade. -/
def envClassicW : SwapEnv :=
  { trade := some tradeClassicW
    account := { isConnected := true, address := some "0xaccount" }
    supportedConnectedChainId := some 1
    swapChainId := some 1
    isEVMChain := fun _ => true
    selectChainSucceeds := fun _ => true
    uniswapXResult := SwapResult.uniswapX { orderHash := "0xoh", deadline := 5, encodedOrder := "0xeo" }
    universalRouterResult := SwapResult.classic { hash := "0xrouterTx" } (some 7) }

/-- A concrete environment for which validation succeeds with a UniswapX
trade. -/
def envUniswapXW : SwapEnv :=
  { trade := some tradeUniswapXW
    account := { isConnected := true, address := some "0xaccount" }
    supportedConnectedChainId := some 1
    swapChainId := some 1
    isEVMChain := fun _ => true
    selectChainSucceeds := fun _ => true
    uniswapXResult := SwapResult.uniswapX { orderHash := "0xoh", deadline := 5, encodedOrder := "0xeo" }
    universalRouterResult := SwapResult.classic { hash := "0xrouterTx" } (some 7) }

/-- The UniswapX swap result produced by the strategies of the concrete
environments above. -/
def resUniswapXW : SwapResult :=
  SwapResult.uniswapX { orderHash := "0xoh", deadline := 5, encodedOrder := "0xeo" }

/-- A concrete environment with a missing trade, for which validation
throws. -/
def envNoTradeW : SwapEnv :=
  { trade := none
    account := { isConnected := true, address := some "0xaccount" }
    supportedConnectedChainId := some 1
    swapChainId := some 1
    isEVMChain := fun _ => true
    selectChainSucceeds := fun _ => true
    uniswapXResult := SwapResult.uniswapX { orderHash := "0xoh", deadline := 5, encodedOrder := "0xeo" }
    universalRouterResult := SwapResult.classic { hash := "0xrouterTx" } (some 7) }

/-! ## Lemmas about deduplication -/

theorem keepFirst_nil : keepFirst [] = [] := by
  rw [keepFirst]

theorem keepFirst_cons (x : String) (xs : List String) :
    keepFirst (x :: xs) = x :: keepFirst (xs.filter (fun y => decide (y ≠ x))) := by
  rw [keepFirst]

theorem mem_of_mem_keepFirst : ∀ l : List String, ∀ y, y ∈ keepFirst l → y ∈ l := by
  intro l
  induction l using keepFirst.induct with
  | case1 => intro y hy; rw [keepFirst_nil] at hy; exact hy
  | case2 x xs ih =>
    intro y hy
    rw [keepFirst_cons] at hy
    rcases List.mem_cons.mp hy with h | h
    · exact h ▸ List.mem_cons_self _ _
    · exact List.mem_cons_of_mem _ (List.mem_of_mem_filter (ih y h))

theorem keepFirst_nodup : ∀ l : List String, (keepFirst l).Nodup := by
  intro l
  induction l using keepFirst.induct with
  | case1 => simp [keepFirst_nil]
  | case2 x xs ih =>
    rw [keepFirst_cons]
    refine List.nodup_cons.mpr ⟨?_, ih⟩
    intro hx
    have hmem := mem_of_mem_keepFirst _ _ hx
    have := List.of_mem_filter hmem
    simp at this

theorem foldl_jsSetAdd_eq (l : List String) :
    ∀ acc : List String,
      l.foldl jsSetAdd acc = acc ++ keepFirst (l.filter (fun x => decide (x ∉ acc))) := by
  induction l with
  | nil => intro acc; simp [keepFirst_nil]
  | cons x xs ih =>
    intro acc
    by_cases hx : x ∈ acc
    · rw [List.foldl_cons, List.filter_cons_of_neg (by simp [hx])]
      rw [show jsSetAdd acc x = acc from if_pos hx]
      exact ih acc
    · rw [List.foldl_cons, List.filter_cons_of_pos (by simp [hx])]
      rw [show jsSetAdd acc x = acc ++ [x] from if_neg hx]
      rw [ih (acc ++ [x]), keepFirst_cons, List.filter_filter]
      have hfil : xs.filter (fun y => decide (y ∉ acc ++ [x]))
          = xs.filter (fun a => decide (a ≠ x) && decide (a ∉ acc)) := by
        apply List.filter_congr
        intro a _
        by_cases h1 : a ∈ acc <;> by_cases h2 : a = x <;> simp [h1, h2]
      rw [List.append_assoc, List.singleton_append, hfil]

theorem jsSetFrom_eq_keepFirst (l : List String) : jsSetFrom l = keepFirst l := by
  rw [jsSetFrom, foldl_jsSetAdd_eq l []]
  simp only [List.nil_append]
  congr 1
  apply List.filter_eq_self.mpr
  intro a _
  simp

/-! ## Claim theorems -/

/-- C1: for every chain-info object, `orderedTransportUrls` returns exactly
the concatenation of the interface, default, public and fallback HTTP RPC
URL lists, in that order, with falsy entries removed and each URL kept only
at its first occurrence (so the result has no duplicates), a missing list
being treated as empty. -/
theorem orderedTransportUrls_spec (chain : ChainInfo) :
    orderedTransportUrls chain =
      keepFirst ((httpOrEmpty chain.rpcUrls.interface ++ httpOrEmpty chain.rpcUrls.default ++
        httpOrEmpty chain.rpcUrls.public ++ httpOrEmpty chain.rpcUrls.fallback).filter
          (fun s => !s.isEmpty)) ∧
    (orderedTransportUrls chain).Nodup := by
  constructor
  · exact jsSetFrom_eq_keepFirst _
  · show (jsSetFrom _).Nodup
    rw [jsSetFrom_eq_keepFirst]
    exact keepFirst_nodup _

/-- C2: `clientToProvider` is memoized per client instance: for every
defined client and any two chain-id arguments, calling it twice in
sequence returns the very same `Web3Provider` object both times (the
second call hits the cache, so its chain-id argument cannot change the
provider), and the second call leaves the cache unchanged. -/
theorem clientToProvider_memoized (c : Client) (cid1 cid2 : Option Nat)
    (cache : ProviderCache) :
    (clientToProvider (some c) cid2 (clientToProvider (some c) cid1 cache).2).1 =
      (clientToProvider (some c) cid1 cache).1 ∧
    (clientToProvider (some c) cid2 (clientToProvider (some c) cid1 cache).2).2 =
      (clientToProvider (some c) cid1 cache).2 := by
  cases h : cache.entries.lookup c.cid with
  | some p => simp [clientToProvider, toNetwork, h]
  | none => simp [clientToProvider, toNetwork, h, List.lookup]

/-- C8: `clientToProvider` returns `undefined` if and only if its client
argument is `undefined`: for every defined client the undefined-network
branch is unreachable and a `Web3Provider` is always returned, regardless
of the chain-id argument. -/
theorem clientToProvider_none_iff (client : Option Client) (chainId : Option Nat)
    (cache : ProviderCache) :
    (clientToProvider client chainId cache).1 = none ↔ client = none := by
  cases client with
  | none => simp [clientToProvider]
  | some c =>
    simp only [clientToProvider, toNetwork]
    cases h : cache.entries.lookup c.cid <;> simp [h]

/-- C7: `createWagmiConnectors` produces the fixed ordered list Porto,
Binance, WalletConnect, embedded wallet, Coinbase, Safe, with WalletConnect
omitted exactly when the environment is a test environment that is not
Playwright, and the mock connector appended at the end exactly when
`includeMockConnector` is true; the default configuration sets that flag
iff the environment is Playwright. -/
theorem createWagmiConnectors_spec (te pe m : Bool) :
    createWagmiConnectors te pe m =
      [Connector.porto, Connector.binance] ++
      (if te = true ∧ pe = false then [] else [Connector.walletConnect]) ++
      [Connector.embeddedWallet, Connector.coinbase, Connector.safe] ++
      (if m = true then [Connector.mock] else []) ∧
    defaultConnectors te pe = createWagmiConnectors te pe pe := by
  cases te <;> cases pe <;> cases m <;> exact ⟨by decide, rfl⟩

/-! ## Lemmas about the swap callback -/

theorem runSwapCallback_of_error (env : SwapEnv) (st : AppState) (e : SwapCallbackError)
    (h : validateSwap env = Except.error e) :
    runSwapCallback env st = { result := Except.error e, invoked := none, state := st } := by
  simp only [runSwapCallback, h]

theorem runSwapCallback_result_of_ok (env : SwapEnv) (st : AppState)
    {v : Trade × String × Nat} (h : validateSwap env = Except.ok v) :
    (runSwapCallback env st).result = Except.ok (strategyResult env) ∧
    (runSwapCallback env st).invoked = some (swapCallbackSelect env.trade) := by
  obtain ⟨trade, addr, scid⟩ := v
  simp [runSwapCallback, h]

theorem validateSwap_error_iff (env : SwapEnv) :
    (∃ e, validateSwap env = Except.error e) ↔
      env.trade = none ∨
      env.account.isConnected = false ∨ strFalsy env.account.address = true ∨
      natFalsy env.swapChainId = true ∨
      (∃ scid, env.swapChainId = some scid ∧ scid ≠ 0 ∧ env.isEVMChain scid = false) ∨
      (∃ scid, env.swapChainId = some scid ∧ scid ≠ 0 ∧ env.isEVMChain scid = true ∧
        (natFalsy env.supportedConnectedChainId = true ∨
          env.supportedConnectedChainId ≠ some scid) ∧
        env.selectChainSucceeds scid = false) := by
  cases htr : env.trade with
  | none =>
    simp only [validateSwap, htr]
    exact iff_of_true ⟨_, rfl⟩ (Or.inl trivial)
  | some trade =>
    by_cases hconn : env.account.isConnected = false ∨ strFalsy env.account.address = true
    · simp only [validateSwap, htr, if_pos hconn]
      refine iff_of_true ⟨_, rfl⟩ ?_
      rcases hconn with h | h
      · exact Or.inr (Or.inl h)
      · exact Or.inr (Or.inr (Or.inl h))
    · cases hsc : env.swapChainId with
      | none =>
        simp only [validateSwap, htr, if_neg hconn, hsc]
        exact iff_of_true ⟨_, rfl⟩ (Or.inr (Or.inr (Or.inr (Or.inl rfl))))
      | some scid =>
        by_cases h0 : scid = 0
        · simp only [validateSwap, htr, if_neg hconn, hsc, if_pos h0]
          refine iff_of_true ⟨_, rfl⟩ (Or.inr (Or.inr (Or.inr (Or.inl ?_))))
          subst h0
          rfl
        · by_cases hevm : env.isEVMChain scid = false
          · simp only [validateSwap, htr, if_neg hconn, hsc, if_neg h0, if_pos hevm]
            exact iff_of_true ⟨_, rfl⟩
              (Or.inr (Or.inr (Or.inr (Or.inr (Or.inl ⟨scid, rfl, h0, hevm⟩)))))
          · have hevmT : env.isEVMChain scid = true := by
              revert hevm; cases env.isEVMChain scid <;> simp
            by_cases hmis : natFalsy env.supportedConnectedChainId = true ∨
                env.supportedConnectedChainId ≠ some scid
            · by_cases hsel : env.selectChainSucceeds scid = true
              · simp only [validateSwap, htr, if_neg hconn, hsc, if_neg h0, if_neg hevm,
                  if_pos hmis, if_pos hsel]
                refine iff_of_false (by rintro ⟨e, he⟩; exact Except.noConfusion he) ?_
                rintro (h | h | h | h | ⟨s, hs, hs0, hsef⟩ | ⟨s, hs, hs0, hse, hsm, hss⟩)
                · exact Option.noConfusion h
                · exact hconn (Or.inl h)
                · exact hconn (Or.inr h)
                · simp [natFalsy] at h; exact h0 h
                · injection hs with hs1; subst hs1; exact hevm hsef
                · injection hs with hs1; subst hs1
                  rw [hsel] at hss; exact Bool.noConfusion hss
              · simp only [validateSwap, htr, if_neg hconn, hsc, if_neg h0, if_neg hevm,
                  if_pos hmis, if_neg hsel]
                refine iff_of_true ⟨_, rfl⟩
                  (Or.inr (Or.inr (Or.inr (Or.inr (Or.inr ⟨scid, rfl, h0, hevmT, hmis, ?_⟩)))))
                revert hsel; cases env.selectChainSucceeds scid <;> simp
            · simp only [validateSwap, htr, if_neg hconn, hsc, if_neg h0, if_neg hevm,
                if_neg hmis]
              refine iff_of_false (by rintro ⟨e, he⟩; exact Except.noConfusion he) ?_
              rintro (h | h | h | h | ⟨s, hs, hs0, hsef⟩ | ⟨s, hs, hs0, hse, hsm, hss⟩)
              · exact Option.noConfusion h
              · exact hconn (Or.inl h)
              · exact hconn (Or.inr h)
              · simp [natFalsy] at h; exact h0 h
              · injection hs with hs1; subst hs1; exact hevm hsef
              · injection hs with hs1; subst hs1; exact hmis hsm

/-- C3: the callback returned by `useSwapCallback` validates before
delegating: it throws, without invoking either swap-execution strategy,
exactly when the trade is missing, the account is not connected or has no
address, the swap chain id is missing, the swap chain id is not an EVM
chain, or the connected chain differs from the swap chain and switching to
it fails; in every other case it invokes the selected strategy. -/
theorem useSwapCallback_validation (env : SwapEnv) (st : AppState) :
    ((∃ e, (runSwapCallback env st).result = Except.error e) ↔
      env.trade = none ∨
      env.account.isConnected = false ∨ strFalsy env.account.address = true ∨
      natFalsy env.swapChainId = true ∨
      (∃ scid, env.swapChainId = some scid ∧ scid ≠ 0 ∧ env.isEVMChain scid = false) ∨
      (∃ scid, env.swapChainId = some scid ∧ scid ≠ 0 ∧ env.isEVMChain scid = true ∧
        (natFalsy env.supportedConnectedChainId = true ∨
          env.supportedConnectedChainId ≠ some scid) ∧
        env.selectChainSucceeds scid = false)) ∧
    ((∃ e, (runSwapCallback env st).result = Except.error e) →
      (runSwapCallback env st).invoked = none) ∧
    ((∃ r, (runSwapCallback env st).result = Except.ok r) →
      (runSwapCallback env st).invoked = some (swapCallbackSelect env.trade)) := by
  have hmain : (∃ e, (runSwapCallback env st).result = Except.error e) ↔
      (∃ e, validateSwap env = Except.error e) := by
    cases hv : validateSwap env with
    | error e => rw [runSwapCallback_of_error env st e hv]; simp [hv]
    | ok v =>
      constructor
      · rintro ⟨e, he⟩
        rw [(runSwapCallback_result_of_ok env st hv).1] at he
        exact absurd he (by simp)
      · rintro ⟨e, he⟩
        exact absurd he (by simp)
  refine ⟨hmain.trans (validateSwap_error_iff env), ?_, ?_⟩
  · rintro ⟨e, he⟩
    cases hv : validateSwap env with
    | error e2 => rw [runSwapCallback_of_error env st e2 hv]
    | ok v =>
      rw [(runSwapCallback_result_of_ok env st hv).1] at he
      exact absurd he (by simp)
  · rintro ⟨r, hr⟩
    cases hv : validateSwap env with
    | error e2 =>
      rw [runSwapCallback_of_error env st e2 hv] at hr
      exact absurd hr (by simp)
    | ok v => exact (runSwapCallback_result_of_ok env st hv).2

/-- C4: whenever the callback delegates, it delegates to the UniswapX
(off-chain auction) strategy if and only if the trade is a UniswapX trade,
and to the universal-router (on-chain) strategy otherwise, returning that
result of that strategy. -/
theorem useSwapCallback_selects_strategy (env : SwapEnv) (st : AppState)
    (h : (runSwapCallback env st).invoked ≠ none) :
    ((runSwapCallback env st).invoked = some StrategyCall.uniswapX ↔
      isUniswapXTrade env.trade = true) ∧
    ((runSwapCallback env st).invoked = some StrategyCall.universalRouter ↔
      isUniswapXTrade env.trade = false) ∧
    ((runSwapCallback env st).invoked = some StrategyCall.uniswapX →
      (runSwapCallback env st).result = Except.ok env.uniswapXResult) ∧
    ((runSwapCallback env st).invoked = some StrategyCall.universalRouter →
      (runSwapCallback env st).result = Except.ok env.universalRouterResult) := by
  cases hv : validateSwap env with
  | error e =>
    rw [runSwapCallback_of_error env st e hv] at h
    exact absurd rfl h
  | ok v =>
    obtain ⟨hres, hinv⟩ := runSwapCallback_result_of_ok env st hv
    rw [hres, hinv]
    by_cases hux : isUniswapXTrade env.trade = true
    · simp [swapCallbackSelect, strategyResult, hux]
    · simp [swapCallbackSelect, strategyResult, hux,
        Bool.not_eq_true _ ▸ hux]

/-- C5: after the selected strategy returns a result, the callback records
the swap in application state: a UniswapX or UniswapXv2 fill appends an
off-chain order whose offerer is the account address and whose order hash,
deadline and encoded order come from the result, leaving transactions
untouched; every other fill type appends an on-chain transaction carrying
the response and deadline of the result, leaving orders untouched; and the
callback returns the result of the strategy unchanged. -/
theorem useSwapCallback_records_result (env : SwapEnv) (st : AppState) (r : SwapResult)
    (h : (runSwapCallback env st).result = Except.ok r) :
    r = strategyResult env ∧
    (∀ resp, (r = SwapResult.uniswapX resp ∨ r = SwapResult.uniswapXv2 resp) →
      (∃ rec, (runSwapCallback env st).state.orders = st.orders ++ [rec] ∧
        rec.offerer = env.account.address.getD "" ∧
        rec.orderHash = resp.orderHash ∧
        rec.expiry = resp.deadline ∧
        rec.encodedOrder = resp.encodedOrder) ∧
      (runSwapCallback env st).state.transactions = st.transactions) ∧
    (∀ resp dl, r = SwapResult.classic resp dl →
      (∃ rec, (runSwapCallback env st).state.transactions = st.transactions ++ [rec] ∧
        rec.response = resp ∧
        rec.deadline = dl) ∧
      (runSwapCallback env st).state.orders = st.orders) := by
  cases hv : validateSwap env with
  | error e =>
    rw [runSwapCallback_of_error env st e hv] at h
    exact absurd h (by simp)
  | ok v =>
    obtain ⟨trade, addr, scid⟩ := v
    have haddr : addr = env.account.address.getD "" := by
      have h2 := hv
      unfold validateSwap at h2
      split at h2
      · exact absurd h2 (by simp)
      · split at h2
        · exact absurd h2 (by simp)
        · split at h2
          · exact absurd h2 (by simp)
          · split at h2
            · exact absurd h2 (by simp)
            · split at h2
              · exact absurd h2 (by simp)
              · split at h2
                · split at h2
                  · injection h2 with h3
                    injection h3 with h4 h5
                    injection h5 with h6 h7
                    exact h6.symm
                  · exact absurd h2 (by simp)
                · injection h2 with h3
                  injection h3 with h4 h5
                  injection h5 with h6 h7
                  exact h6.symm
    rw [(runSwapCallback_result_of_ok env st hv).1] at h
    injection h with h1
    subst haddr
    refine ⟨h1.symm, ?_, ?_⟩
    · intro resp hcase
      rcases hcase with hs | hs <;> rw [hs] at h1 <;>
      · simp only [runSwapCallback, hv, h1, addOrder]
        exact ⟨⟨_, rfl, rfl, rfl, rfl, rfl⟩, trivial⟩
    · intro resp dl hs
      rw [hs] at h1
      simp only [runSwapCallback, hv, h1, addTransaction]
      exact ⟨⟨_, rfl, rfl, rfl⟩, trivial⟩

/-- C6: if the callback throws during input validation, application state
is unchanged and no strategy was invoked (recording happens only after a
successful delegation). -/
theorem useSwapCallback_error_state_unchanged (env : SwapEnv) (st : AppState)
    (e : SwapCallbackError) (h : (runSwapCallback env st).result = Except.error e) :
    (runSwapCallback env st).state = st ∧ (runSwapCallback env st).invoked = none := by
  cases hv : validateSwap env with
  | error e2 =>
    rw [runSwapCallback_of_error env st e2 hv]
    exact ⟨rfl, rfl⟩
  | ok v =>
    rw [(runSwapCallback_result_of_ok env st hv).1] at h
    exact absurd h (by simp)

/-- C9: `getUniversalRouterFeeFields` returns `undefined` iff the trade is
not a classic trade or has no swap fee; for every classic trade with a swap
fee it returns a percent-based `feeOptions` field when the trade type is
exact-input and a flat-amount `flatFeeOptions` field otherwise, each carrying
the recipient of the fee. -/
theorem getUniversalRouterFeeFields_spec (trade : Option Trade) :
    (getUniversalRouterFeeFields trade = none ↔
      ¬ ∃ t fee, trade = some t ∧ t.variant = TradeVariant.classic (some fee)) ∧
    (∀ t fee, trade = some t → t.variant = TradeVariant.classic (some fee) →
      getUniversalRouterFeeFields trade =
        (if t.tradeType = TradeType.EXACT_INPUT then
          some (UniversalRouterFeeField.feeOptions fee.percent fee.recipient)
        else
          some (UniversalRouterFeeField.flatFeeOptions fee.amount fee.recipient))) := by
  constructor
  · cases trade with
    | none => simp [getUniversalRouterFeeFields]
    | some t =>
      cases hv : t.variant with
      | uniswapX o => simp [getUniversalRouterFeeFields, hv]
      | classic fee? =>
        cases fee? with
        | none => simp [getUniversalRouterFeeFields, hv]
        | some fee =>
          simp only [getUniversalRouterFeeFields, hv]
          constructor
          · intro h
            split at h <;> exact absurd h (by simp)
          · intro h
            exact absurd ⟨t, fee, rfl, hv⟩ h
  · intro t fee heq hvar
    subst heq
    simp only [getUniversalRouterFeeFields, hvar]

/-- C10: `useSwapTransactionStatus` returns `undefined` for every swap
result whose fill type is not Classic, and for every Classic result whose
transaction hash is not in the transaction store; otherwise it returns the
status of the stored transaction. -/
theorem useSwapTransactionStatus_spec (store : List (String × StoredTransaction))
    (swapResult : Option SwapResult) :
    (∀ r, swapResult = some r → r.fillType ≠ TradeFillType.Classic →
      useSwapTransactionStatus store swapResult = none) ∧
    (∀ resp dl, swapResult = some (SwapResult.classic resp dl) →
      (store.lookup resp.hash = none → useSwapTransactionStatus store swapResult = none) ∧
      (∀ t, store.lookup resp.hash = some t →
        useSwapTransactionStatus store swapResult = some t.status)) := by
  constructor
  · intro r heq hfill
    subst heq
    cases r with
    | uniswapX resp => simp [useSwapTransactionStatus, useTransaction]
    | uniswapXv2 resp => simp [useSwapTransactionStatus, useTransaction]
    | classic resp dl => exact absurd rfl hfill
  · intro resp dl heq
    subst heq
    constructor
    · intro hnone
      simp [useSwapTransactionStatus, useTransaction, hnone]
    · intro t hsome
      simp [useSwapTransactionStatus, useTransaction, hsome]

/-! ## Witnesses for the theorems with hypotheses -/

/-- Witness for C4 at a concrete environment with a UniswapX trade. -/
theorem useSwapCallback_selects_strategy_witness :
    (runSwapCallback envUniswapXW stEmptyW).invoked ≠ none ∧
    (((runSwapCallback envUniswapXW stEmptyW).invoked = some StrategyCall.uniswapX ↔
      isUniswapXTrade envUniswapXW.trade = true) ∧
    ((runSwapCallback envUniswapXW stEmptyW).invoked = some StrategyCall.universalRouter ↔
      isUniswapXTrade envUniswapXW.trade = false) ∧
    ((runSwapCallback envUniswapXW stEmptyW).invoked = some StrategyCall.uniswapX →
      (runSwapCallback envUniswapXW stEmptyW).result = Except.ok envUniswapXW.uniswapXResult) ∧
    ((runSwapCallback envUniswapXW stEmptyW).invoked = some StrategyCall.universalRouter →
      (runSwapCallback envUniswapXW stEmptyW).result =
        Except.ok envUniswapXW.universalRouterResult)) :=
  ⟨by decide, useSwapCallback_selects_strategy envUniswapXW stEmptyW (by decide)⟩

/-- Witness for C5 at a concrete environment whose strategy returns a
UniswapX fill, starting from a nonempty application state. -/
theorem useSwapCallback_records_result_witness :
    (runSwapCallback envUniswapXW stNonemptyW).result = Except.ok resUniswapXW ∧
    (resUniswapXW = strategyResult envUniswapXW ∧
      (∀ resp, (resUniswapXW = SwapResult.uniswapX resp ∨
          resUniswapXW = SwapResult.uniswapXv2 resp) →
        (∃ rec, (runSwapCallback envUniswapXW stNonemptyW).state.orders =
            stNonemptyW.orders ++ [rec] ∧
          rec.offerer = envUniswapXW.account.address.getD "" ∧
          rec.orderHash = resp.orderHash ∧
          rec.expiry = resp.deadline ∧
          rec.encodedOrder = resp.encodedOrder) ∧
        (runSwapCallback envUniswapXW stNonemptyW).state.transactions =
          stNonemptyW.transactions) ∧
      (∀ resp dl, resUniswapXW = SwapResult.classic resp dl →
        (∃ rec, (runSwapCallback envUniswapXW stNonemptyW).state.transactions =
            stNonemptyW.transactions ++ [rec] ∧
          rec.response = resp ∧
          rec.deadline = dl) ∧
        (runSwapCallback envUniswapXW stNonemptyW).state.orders = stNonemptyW.orders)) :=
  ⟨rfl, useSwapCallback_records_result envUniswapXW stNonemptyW resUniswapXW rfl⟩

/-- Witness for C6 at a concrete environment with a missing trade, starting
from a nonempty application state. -/
theorem useSwapCallback_error_state_unchanged_witness :
    (runSwapCallback envNoTradeW stNonemptyW).result =
      Except.error SwapCallbackError.missingTrade ∧
    ((runSwapCallback envNoTradeW stNonemptyW).state = stNonemptyW ∧
      (runSwapCallback envNoTradeW stNonemptyW).invoked = none) :=
  ⟨rfl, useSwapCallback_error_state_unchanged envNoTradeW stNonemptyW
    SwapCallbackError.missingTrade rfl⟩

end InterfaceWeb

